import Mathlib

/-!
Shallow embedding of the message-orchestration core of the HR interview agent
(`src/worker/chat.ts`, class `ChatHandler`), together with theorems checking the
natural-language specification against it.

External collaborators are parameters of the embedded functions:
* `jsonParse` stands for the runtime `JSON.parse` (may throw);
* `executeTool` stands for the tool registry executor from `./tools` (may throw);
* `followUp` stands for the second (blocking) completion call inside
  `generateToolResponse`, returning `choices[0]?.message?.content`;
* streamed and whole completion responses are explicit values.

A thrown JavaScript value is modelled as `Option String`: `some m` for an
`Error` with message `m`, `none` for a non-`Error` thrown value (the code
branches on `error instanceof Error`).
-/

namespace ChatHandler

/-- JSON-like structured values: results of `JSON.parse`, tool results, and
inputs of `JSON.stringify`. Numbers are modelled as integers (all numbers in
the claims are integral). -/
inductive Json where
  | null : Json
  | bool (b : Bool) : Json
  | num (n : Int) : Json
  | str (s : String) : Json
  | arr (xs : List Json) : Json
  | obj (fields : List (String × Json)) : Json
deriving Repr

/-- Escaping of one character inside a JSON string literal, as
`JSON.stringify` performs it (quote, backslash, and common control
characters; other characters pass through unchanged). -/
def jsonEscapeChar (c : Char) : String :=
  if c = Char.ofNat 34 then ("\\\"")
  else if c = Char.ofNat 92 then ("\\\\")
  else if c = Char.ofNat 10 then ("\\n")
  else if c = Char.ofNat 13 then ("\\r")
  else if c = Char.ofNat 9 then ("\\t")
  else String.singleton c

/-- String-body escaping of `JSON.stringify`. -/
def jsonEscape (s : String) : String :=
  String.join (s.toList.map jsonEscapeChar)

mutual

/-- `JSON.stringify`, as used on tool results in `generateToolResponse`. -/
def Json.stringify : Json → String
  | Json.null => "null"
  | Json.bool b => if b then ("true") else ("false")
  | Json.num n => toString n
  | Json.str s => "\"" ++ jsonEscape s ++ "\""
  | Json.arr xs => "[" ++ stringifyItems xs ++ "]"
  | Json.obj fs => "\x7b" ++ stringifyFields fs ++ "\x7d"

/-- Comma-separated serialization of a JSON array body. -/
def stringifyItems : List Json → String
  | [] => ""
  | [x] => Json.stringify x
  | x :: y :: rest => Json.stringify x ++ "," ++ stringifyItems (y :: rest)

/-- Comma-separated serialization of a JSON object body. -/
def stringifyFields : List (String × Json) → String
  | [] => ""
  | [(k, v)] => "\"" ++ jsonEscape k ++ "\":" ++ Json.stringify v
  | (k, v) :: f :: rest =>
      "\"" ++ jsonEscape k ++ "\":" ++ Json.stringify v ++ "," ++ stringifyFields (f :: rest)

end

/-- JavaScript truthiness of an optional string: `undefined`/`null` and the
empty string are falsy. -/
def jsTruthy : Option String → Bool
  | none => false
  | some s => s ≠ ""

/-- The JavaScript `x || d` idiom on an optional string `x`: the string when
present and non-empty, otherwise the default. -/
def jsOr (o : Option String) (d : String) : String :=
  match o with
  | none => d
  | some s => if s = "" then d else s

/-- A conversation message (`Message` from `./types`, as produced and consumed
by `chat.ts`: a role tag and a text content). -/
structure Message where
  role : String
  content : String
deriving Repr, DecidableEq

/-- A fully formed tool-call request
(`ChatCompletionMessageFunctionToolCall`, with its constant `type` field
dropped and the `function.name` / `function.arguments` fields flattened). -/
@[ext]
structure ChatCompletionMessageFunctionToolCall where
  id : String
  name : String
  arguments : String
deriving Repr, DecidableEq

/-- An executed tool call (`ToolCall` from `./types`, as constructed in
`executeToolCalls`): parsed arguments and a structured result. -/
structure ToolCall where
  id : String
  name : String
  arguments : Json
  result : Json
deriving Repr

/-- The value resolved by `processMessage`: content plus optional executed
tool calls. -/
structure TurnResult where
  content : String
  toolCalls : Option (List ToolCall)
deriving Repr

/-- One tool-call fragment inside a streamed delta (`delta.tool_calls[i]`):
every field may be absent. -/
structure DeltaToolCall where
  id : Option String
  name : Option String
  arguments : Option String
deriving Repr, DecidableEq

/-- The delta payload of one streamed chunk. -/
structure Delta where
  content : Option String
  tool_calls : Option (List DeltaToolCall)
deriving Repr, DecidableEq

/-- One streamed chunk; the code reads `chunk.choices[0]?.delta`, so the
chunk is modelled as its list of deltas (one per choice). -/
structure ChatCompletionChunk where
  choices : List Delta
deriving Repr, DecidableEq

/-- `choices[0].message` of a whole (non-streamed) completion. -/
structure ResponseMessage where
  content : Option String
  tool_calls : Option (List ChatCompletionMessageFunctionToolCall)
deriving Repr, DecidableEq

/-- A whole (non-streamed) completion, modelled as its per-choice messages. -/
structure ChatCompletion where
  choices : List ResponseMessage
deriving Repr, DecidableEq

/-- A message sent on the second completion call inside
`generateToolResponse`: a plain role/content message, the synthetic assistant
message carrying the original tool-call requests, or a tool-role message
carrying a serialized result and the correlating tool-call id. -/
inductive OutMsg where
  | plain (role : String) (content : Option String) : OutMsg
  | assistantCalls (tool_calls : List ChatCompletionMessageFunctionToolCall) : OutMsg
  | tool (content : String) (tool_call_id : String) : OutMsg
deriving Repr, DecidableEq

/-- The fixed interview-script system instruction of
`buildConversationMessages` (the template literal `systemPrompt`). -/
def systemPrompt : String :=
  String.intercalate ("\n")
    [ "You are \"AuraHire\", a professional and courteous AI-powered interview agent. Your purpose is to conduct a structured initial screening interview for HR roles.",
      "Your process is as follows:",
      "1.  **Initial State**: If the conversation has just begun, you have already greeted the user and asked them to select a role. You are now waiting for their selection.",
      "2.  **Role Selection**: The user\x27s first message will indicate their chosen role, either \"Office Staff\" or \"Beauty Host\".",
      "3.  **Initiate Interview**: Once the role is identified, acknowledge their selection and begin the structured 5-question interview for that specific role. Ask only ONE question at a time.",
      "4.  **Conduct Interview**: After each user response, ask the next question in the sequence. Be encouraging and maintain a professional tone. Do not deviate from the script.",
      "5.  **Conclusion**: After the 5th question is answered, provide a polite concluding message and end the interview.",
      "**Interview Script for \"Office Staff\":**",
      "- Question 1: \"Great, let\x27s begin. Can you describe your previous experience in an office environment and what your key responsibilities were?\"",
      "- Question 2: \"How do you prioritize your tasks when you have multiple deadlines to meet?\"",
      "- Question 3: \"Describe a time you had to handle a difficult situation with a colleague or client. How did you resolve it?\"",
      "- Question 4: \"What software and tools are you proficient in for office administration?\"",
      "- Question 5: \"What do you believe are the most important qualities for an office staff member to contribute to a positive and efficient workplace?\"",
      "- Concluding Message: \"Thank you for sharing your experiences. That concludes our initial screening. We appreciate your time, and our HR team will be in touch with the next steps. Have a great day!\"",
      "**Interview Script for \"Beauty Host\":**",
      "- Question 1: \"Excellent, let\x27s get started. What attracts you to the role of a Beauty Host, and what does an elevated brand experience mean to you?\"",
      "- Question 2: \"Can you share an example of a time you went above and beyond to provide exceptional customer service?\"",
      "- Question 3: \"How do you stay updated on the latest beauty trends and product knowledge?\"",
      "- Question 4: \"Describe a situation where you had to assist a client who was unsure about what they wanted. How did you guide them?\"",
      "- Question 5: \"In a fast-paced retail environment, how do you maintain a positive and welcoming atmosphere for every client?\"",
      "- Concluding Message: \"Thank you for your thoughtful answers. That\x27s all the questions I have for now. We appreciate you taking the time to speak with us. Our recruitment team will review your responses and be in contact regarding the next steps. Have a wonderful day!\"",
      "**Rules of Engagement:**",
      "- Only ask one question at a time.",
      "- Wait for the user\x27s response before proceeding to the next question.",
      "- Do not add any commentary or follow-up questions outside of the script.",
      "- If the user\x27s first message is not a role selection, gently guide them back: \"To proceed, please first select a role from the dropdown menu.\"" ]

/-- `buildConversationMessages`: the fixed system instruction, then the
history in order (each message re-built from its role and content), then the
new user message. -/
def buildConversationMessages (userMessage : String) (history : List Message) : List Message :=
  [{ role := "system", content := systemPrompt }]
    ++ history.map (fun m => { role := m.role, content := m.content })
    ++ [{ role := "user", content := userMessage }]

/-- The message the `Error` branch of a JavaScript catch would report:
`error.message` when the thrown value is an `Error`, else the literal
fallback. -/
def errMessage : Option String → String
  | some m => m
  | none => "Unknown error"

/-- The fallible part of one iteration of `executeToolCalls`: parse the
arguments text when non-empty (empty text means an empty object without
parsing), then run the tool executor. -/
def runTool (jsonParse : String → Except (Option String) Json)
    (executeTool : String → Json → Except (Option String) Json)
    (tc : ChatCompletionMessageFunctionToolCall) : Except (Option String) (Json × Json) :=
  match (if tc.arguments ≠ "" then jsonParse tc.arguments else Except.ok (Json.obj [])) with
  | Except.error e => Except.error e
  | Except.ok args =>
    match executeTool tc.name args with
    | Except.error e => Except.error e
    | Except.ok result => Except.ok (args, result)

/-- The body of the `map` in `executeToolCalls`: build the `ToolCall` record,
degrading any thrown error to an error-shaped result with empty arguments. -/
def execOne (jsonParse : String → Except (Option String) Json)
    (executeTool : String → Json → Except (Option String) Json)
    (tc : ChatCompletionMessageFunctionToolCall) : ToolCall :=
  match runTool jsonParse executeTool tc with
  | Except.ok (args, result) =>
      { id := tc.id, name := tc.name, arguments := args, result := result }
  | Except.error e =>
      { id := tc.id, name := tc.name, arguments := Json.obj [],
        result := Json.obj
          [("error", Json.str ("Failed to execute " ++ tc.name ++ ": " ++ errMessage e))] }

/-- `executeToolCalls`: one `ToolCall` per request, order preserved
(`Promise.all` over `map` resolves position-wise). -/
def executeToolCalls (jsonParse : String → Except (Option String) Json)
    (executeTool : String → Json → Except (Option String) Json)
    (openAiToolCalls : List ChatCompletionMessageFunctionToolCall) : List ToolCall :=
  openAiToolCalls.map (execOne jsonParse executeTool)

/-- The last `n` elements of a list (`Array.prototype.slice` with a negative
index, as in `history.slice(-3)`). -/
def lastN (n : Nat) (l : List Message) : List Message :=
  l.drop (l.length - n)

/-- The `tool_call_id` of the synthetic tool-role message at position `i`:
`openAiToolCalls[index]?.id || result.id`. -/
def toolCallIdAt (openAiToolCalls : List ChatCompletionMessageFunctionToolCall)
    (i : Nat) (resultId : String) : String :=
  match openAiToolCalls[i]? with
  | some tc => jsOr (some tc.id) resultId
  | none => resultId

/-- The message list of the second completion call inside
`generateToolResponse`. -/
def secondCallMessages (userMessage : String) (history : List Message)
    (openAiToolCalls : List ChatCompletionMessageFunctionToolCall)
    (toolResults : List ToolCall) : List OutMsg :=
  [OutMsg.plain ("system")
      (some ("You are a helpful AI assistant. Respond naturally to the tool results."))]
    ++ (lastN 3 history).map (fun m => OutMsg.plain m.role (some m.content))
    ++ [OutMsg.plain ("user") (some userMessage),
        OutMsg.assistantCalls openAiToolCalls]
    ++ toolResults.enum.map (fun p =>
        OutMsg.tool (Json.stringify p.2.result) (toolCallIdAt openAiToolCalls p.1 p.2.id))

/-- `generateToolResponse`: issue the second (blocking) completion call and
return its content, or the fixed fallback when absent or empty. -/
def generateToolResponse (followUp : List OutMsg → Option String)
    (userMessage : String) (history : List Message)
    (openAiToolCalls : List ChatCompletionMessageFunctionToolCall)
    (toolResults : List ToolCall) : String :=
  jsOr (followUp (secondCallMessages userMessage history openAiToolCalls toolResults))
    ("Tool results processed successfully.")

/-- The turn-scoped mutable state of `handleStreamResponse`: the content
buffer and the positional tool-call accumulator. -/
structure StreamState where
  fullContent : String
  accumulatedToolCalls : List ChatCompletionMessageFunctionToolCall
deriving Repr, DecidableEq

/-- A fresh accumulator entry established by the first fragment at a
position: `id` from the fragment or the timestamped fallback, `name` and
`arguments` from the fragment or empty. -/
def freshToolCall (now : Nat) (i : Nat) (dtc : DeltaToolCall) :
    ChatCompletionMessageFunctionToolCall :=
  { id := jsOr dtc.id ("tool_" ++ toString now ++ "_" ++ toString i),
    name := jsOr dtc.name (""),
    arguments := jsOr dtc.arguments ("") }

/-- Merging a later fragment into an existing accumulator entry: fill `name`
only when the fragment carries one and the entry name is still empty, and
append the fragment arguments text when present. -/
def mergeToolCall (acc : ChatCompletionMessageFunctionToolCall) (dtc : DeltaToolCall) :
    ChatCompletionMessageFunctionToolCall :=
  let acc1 :=
    if jsTruthy dtc.name ∧ acc.name = "" then { acc with name := dtc.name.getD ("") } else acc
  if jsTruthy dtc.arguments
  then { acc1 with arguments := acc1.arguments ++ dtc.arguments.getD ("") }
  else acc1

/-- One step of the positional accumulation loop: position `i` of the delta
merges into entry `i` when it exists and establishes it otherwise (the loop
visits positions `0, 1, ...` in order, so a new position is exactly the
current length). -/
def accumulateStep (now : Nat) (acc : List ChatCompletionMessageFunctionToolCall)
    (i : Nat) (dtc : DeltaToolCall) : List ChatCompletionMessageFunctionToolCall :=
  if h : i < acc.length
  then acc.set i (mergeToolCall (acc.get ⟨i, h⟩) dtc)
  else acc ++ [freshToolCall now i dtc]

/-- The inner `for` loop over `delta.tool_calls` of one chunk. -/
def accumulateDelta (now : Nat) (acc : List ChatCompletionMessageFunctionToolCall)
    (dtcs : List DeltaToolCall) : List ChatCompletionMessageFunctionToolCall :=
  dtcs.enum.foldl (fun a p => accumulateStep now a p.1 p.2) acc

/-- The body of the `for await` loop of `handleStreamResponse` for one chunk:
append truthy content to the buffer (forwarding it to `onChunk`), then merge
any tool-call fragments positionally. -/
def processChunk (now : Nat) (st : StreamState) (ch : ChatCompletionChunk) : StreamState :=
  match ch.choices.head? with
  | none => st
  | some delta =>
    let st1 :=
      if jsTruthy delta.content
      then { st with fullContent := st.fullContent ++ delta.content.getD ("") }
      else st
    match delta.tool_calls with
    | some dtcs => { st1 with accumulatedToolCalls := accumulateDelta now st1.accumulatedToolCalls dtcs }
    | none => st1

/-- `handleStreamResponse`: consume the stream (modelled as the list of
chunks yielded before a possible fault, plus whether the iteration then
raises); a fault makes the whole turn fail with the dedicated error; else
execute any accumulated tool calls and fold their results, or return the
buffered content alone. -/
def handleStreamResponse (jsonParse : String → Except (Option String) Json)
    (executeTool : String → Json → Except (Option String) Json)
    (followUp : List OutMsg → Option String) (now : Nat)
    (chunks : List ChatCompletionChunk) (streamFault : Bool)
    (message : String) (conversationHistory : List Message) : Except String TurnResult :=
  if streamFault then Except.error ("Stream processing failed")
  else
    let st := chunks.foldl (processChunk now) { fullContent := "", accumulatedToolCalls := [] }
    if st.accumulatedToolCalls.length > 0 then
      let executedTools := executeToolCalls jsonParse executeTool st.accumulatedToolCalls
      let finalResponse :=
        generateToolResponse followUp message conversationHistory st.accumulatedToolCalls executedTools
      Except.ok { content := finalResponse, toolCalls := some executedTools }
    else
      Except.ok { content := st.fullContent, toolCalls := none }

/-- `handleNonStreamResponse`: missing choice message degrades to a fallback;
absent `tool_calls` returns the content (or a fallback when null or empty);
otherwise execute the tool calls and fold their results. -/
def handleNonStreamResponse (jsonParse : String → Except (Option String) Json)
    (executeTool : String → Json → Except (Option String) Json)
    (followUp : List OutMsg → Option String)
    (completion : ChatCompletion)
    (message : String) (conversationHistory : List Message) : TurnResult :=
  match completion.choices.head? with
  | none =>
      { content := "I apologize, but I encountered an issue processing your request.",
        toolCalls := none }
  | some responseMessage =>
    match responseMessage.tool_calls with
    | none =>
        { content := jsOr responseMessage.content ("I apologize, but I encountered an issue."),
          toolCalls := none }
    | some reqs =>
      let toolCalls := executeToolCalls jsonParse executeTool reqs
      { content := generateToolResponse followUp message conversationHistory reqs toolCalls,
        toolCalls := some toolCalls }

/-- `processMessage`: build the conversation, then follow the streaming
branch when an `onChunk` sink is supplied and the blocking branch otherwise.
The completion clients are parameters from the built message list to the
response they return. -/
def processMessage (jsonParse : String → Except (Option String) Json)
    (executeTool : String → Json → Except (Option String) Json)
    (followUp : List OutMsg → Option String) (now : Nat)
    (streamClient : List Message → List ChatCompletionChunk × Bool)
    (blockClient : List Message → ChatCompletion)
    (message : String) (conversationHistory : List Message)
    (hasOnChunk : Bool) : Except String TurnResult :=
  if hasOnChunk then
    let s := streamClient (buildConversationMessages message conversationHistory)
    handleStreamResponse jsonParse executeTool followUp now s.1 s.2 message conversationHistory
  else
    Except.ok (handleNonStreamResponse jsonParse executeTool followUp
      (blockClient (buildConversationMessages message conversationHistory))
      message conversationHistory)

/-- Re-building a message from its role and content is the identity. -/
theorem map_message_eta (l : List Message) :
    l.map (fun m => ({ role := m.role, content := m.content } : Message)) = l := by
  induction l with
  | nil => rfl
  | cons m rest ih => simp [ih]

/-- Claim C3: for every user message and every (possibly empty) history, the
Prompt Builder output is a list of length history + 2 whose first element is
the fixed system instruction (identical on every call), whose middle elements
are the history messages in order, and whose last element is a user message
with the latest text. -/
theorem c3_buildConversationMessages (userMessage : String) (history : List Message) :
    (buildConversationMessages userMessage history).length = history.length + 2 ∧
    (buildConversationMessages userMessage history).head? =
      some { role := "system", content := systemPrompt } ∧
    (∀ i, i < history.length →
      (buildConversationMessages userMessage history)[i + 1]? = history[i]?) ∧
    (buildConversationMessages userMessage history).getLast? =
      some { role := "user", content := userMessage } := by
  unfold buildConversationMessages
  rw [map_message_eta]
  refine ⟨by simp, by simp, ?_, ?_⟩
  · intro i hi
    simp only [List.cons_append, List.singleton_append, List.getElem?_cons_succ]
    rw [List.getElem?_append]
    simp [hi]
  · rw [List.getLast?_concat]

/-- Witness for C3 at the empty history and at a one-element history. -/
theorem c3_witness :
    (buildConversationMessages ("hi") []).length = 2 ∧
    (buildConversationMessages ("hi") []).head? =
      some { role := "system", content := systemPrompt } ∧
    (buildConversationMessages ("hi") []).getLast? =
      some { role := "user", content := "hi" } ∧
    (buildConversationMessages ("hello") [{ role := "user", content := "a" }])[1]? =
      some { role := "user", content := "a" } ∧
    (buildConversationMessages ("hello") [{ role := "user", content := "a" }]).getLast? =
      some { role := "user", content := "hello" } := by
  have h0 := c3_buildConversationMessages ("hi") []
  have h1 := c3_buildConversationMessages ("hello") [{ role := "user", content := "a" }]
  exact ⟨h0.1, h0.2.1, h0.2.2.2, h1.2.2.1 0 (by decide), h1.2.2.2⟩

/-- Claim C9: the Prompt Builder is deterministic — two calls on identical
inputs yield structurally identical output, and the leading system message
does not depend on the inputs at all (no timestamp or randomness). -/
theorem c9_buildConversationMessages_deterministic (userMessage : String)
    (history : List Message) (otherMessage : String) (otherHistory : List Message) :
    buildConversationMessages userMessage history = buildConversationMessages userMessage history ∧
    (buildConversationMessages userMessage history).head? =
      (buildConversationMessages otherMessage otherHistory).head? := by
  exact ⟨rfl, by simp [buildConversationMessages]⟩

/-- Claim C5: in streaming mode, a stream that raises mid-iteration makes the
whole turn fail with the dedicated stream-processing error; no `TurnResult`
is returned, whatever was already consumed. -/
theorem c5_stream_fault_aborts (jsonParse : String → Except (Option String) Json)
    (executeTool : String → Json → Except (Option String) Json)
    (followUp : List OutMsg → Option String) (now : Nat)
    (blockClient : List Message → ChatCompletion)
    (chunks : List ChatCompletionChunk)
    (message : String) (conversationHistory : List Message) :
    processMessage jsonParse executeTool followUp now (fun _ => (chunks, true)) blockClient
      message conversationHistory true = Except.error ("Stream processing failed") := by
  rfl

/-- Claim C7: in the blocking branch, a completion whose message carries no
tool calls and no content text (absent or empty) does not fail: the turn
resolves with the generic fallback reply; a completion with no choice at all
resolves with the other generic fallback. -/
theorem c7_missing_content_fallback (jsonParse : String → Except (Option String) Json)
    (executeTool : String → Json → Except (Option String) Json)
    (followUp : List OutMsg → Option String) (now : Nat)
    (streamClient : List Message → List ChatCompletionChunk × Bool)
    (message : String) (conversationHistory : List Message)
    (c : Option String) (hc : c = none ∨ c = some ("")) :
    processMessage jsonParse executeTool followUp now streamClient
        (fun _ => { choices := [{ content := c, tool_calls := none }] })
        message conversationHistory false =
      Except.ok { content := "I apologize, but I encountered an issue.", toolCalls := none } ∧
    processMessage jsonParse executeTool followUp now streamClient
        (fun _ => { choices := [] }) message conversationHistory false =
      Except.ok { content := "I apologize, but I encountered an issue processing your request.",
                  toolCalls := none } := by
  refine ⟨?_, rfl⟩
  rcases hc with h | h <;> subst h <;> rfl

/-- Witness for C7: absent content at concrete inputs. -/
theorem c7_witness :
    processMessage (fun _ => Except.error none) (fun _ _ => Except.error none) (fun _ => none) 0
        (fun _ => ([], false))
        (fun _ => { choices := [{ content := none, tool_calls := none }] }) "hi" [] false =
      Except.ok { content := "I apologize, but I encountered an issue.", toolCalls := none } :=
  (c7_missing_content_fallback (fun _ => Except.error none) (fun _ _ => Except.error none)
    (fun _ => none) 0 (fun _ => ([], false)) "hi" [] none (Or.inl rfl)).1


/-- The built record keeps the request id in both the success and the error
branch of `executeToolCalls`. -/
theorem execOne_id (jsonParse : String → Except (Option String) Json)
    (executeTool : String → Json → Except (Option String) Json)
    (tc : ChatCompletionMessageFunctionToolCall) :
    (execOne jsonParse executeTool tc).id = tc.id := by
  unfold execOne
  cases runTool jsonParse executeTool tc with
  | ok v => cases v; rfl
  | error e => rfl

/-- The built record keeps the request name in both branches. -/
theorem execOne_name (jsonParse : String → Except (Option String) Json)
    (executeTool : String → Json → Except (Option String) Json)
    (tc : ChatCompletionMessageFunctionToolCall) :
    (execOne jsonParse executeTool tc).name = tc.name := by
  unfold execOne
  cases runTool jsonParse executeTool tc with
  | ok v => cases v; rfl
  | error e => rfl

/-- Claim C2: `executeToolCalls` returns exactly one `ToolCall` per request,
position-wise with the same id; the entry at a position depends only on the
request at that position (so one throwing executor leaves the rest
untouched), and a throwing request degrades to an error-shaped result that
names the tool and the failure, instead of aborting the turn. -/
theorem c2_executeToolCalls (jsonParse : String → Except (Option String) Json)
    (executeTool : String → Json → Except (Option String) Json)
    (openAiToolCalls : List ChatCompletionMessageFunctionToolCall)
    (i : Nat) (hi : i < openAiToolCalls.length) :
    (executeToolCalls jsonParse executeTool openAiToolCalls).length =
      openAiToolCalls.length ∧
    (executeToolCalls jsonParse executeTool openAiToolCalls)[i]? =
      some (execOne jsonParse executeTool openAiToolCalls[i]) ∧
    (execOne jsonParse executeTool openAiToolCalls[i]).id = openAiToolCalls[i].id ∧
    (∀ err, runTool jsonParse executeTool openAiToolCalls[i] = Except.error err →
      execOne jsonParse executeTool openAiToolCalls[i] =
        { id := openAiToolCalls[i].id, name := openAiToolCalls[i].name,
          arguments := Json.obj [],
          result := Json.obj [("error",
            Json.str ("Failed to execute " ++ openAiToolCalls[i].name ++ ": " ++
              errMessage err))] }) := by
  refine ⟨by simp [executeToolCalls], ?_, execOne_id _ _ _, ?_⟩
  · simp [executeToolCalls, List.getElem?_map, List.getElem?_eq_getElem hi]
  · intro err herr
    unfold execOne
    rw [herr]

/-- A toy `JSON.parse` for witnesses: wraps a non-empty text into a JSON
string, throws on the empty text. -/
def wParse : String → Except (Option String) Json :=
  fun s => if s = "" then Except.error (some ("empty")) else Except.ok (Json.str s)

/-- A toy tool executor for witnesses: the tool named boom throws an `Error`
with message kaboom, every other tool echoes its arguments. -/
def wExec : String → Json → Except (Option String) Json :=
  fun n args => if n = "boom" then Except.error (some ("kaboom")) else Except.ok args

/-- The two tool-call requests of the C2 witness: the second one names the
throwing tool. -/
def wReqs : List ChatCompletionMessageFunctionToolCall :=
  [{ id := "id1", name := "ok", arguments := "x" },
   { id := "id2", name := "boom", arguments := "y" }]

/-- Witness for C2: two requests, the second executor throws; both entries
are produced, ids preserved, and the throwing one carries the error-shaped
result. -/
theorem c2_witness :
    (executeToolCalls wParse wExec wReqs).length = 2 ∧
    (executeToolCalls wParse wExec wReqs)[0]? =
      some { id := "id1", name := "ok", arguments := Json.str ("x"),
             result := Json.str ("x") } ∧
    (executeToolCalls wParse wExec wReqs)[1]? =
      some { id := "id2", name := "boom", arguments := Json.obj [],
             result := Json.obj [("error",
               Json.str ("Failed to execute boom: kaboom"))] } := by
  have h0 := c2_executeToolCalls wParse wExec wReqs 0 (by decide)
  have h1 := c2_executeToolCalls wParse wExec wReqs 1 (by decide)
  refine ⟨h0.1, ?_, ?_⟩
  · rw [h0.2.1]
    rfl
  · rw [h1.2.1, h1.2.2.2 (some ("kaboom")) (by rfl)]
    rfl

/-- Claim C10: whenever argument parsing or tool execution throws, the
recorded `ToolCall` keeps the request id and name, its arguments field is the
empty object (even when the arguments text had parsed successfully before the
executor threw), and its result is an object with a single error field of the
form described in the claim. -/
theorem c10_execOne_error_shape (jsonParse : String → Except (Option String) Json)
    (executeTool : String → Json → Except (Option String) Json)
    (tc : ChatCompletionMessageFunctionToolCall) (err : Option String)
    (herr : runTool jsonParse executeTool tc = Except.error err) :
    execOne jsonParse executeTool tc =
      { id := tc.id, name := tc.name, arguments := Json.obj [],
        result := Json.obj [("error",
          Json.str ("Failed to execute " ++ tc.name ++ ": " ++ errMessage err))] } := by
  unfold execOne
  rw [herr]

/-- Witness for C10: the arguments text parses successfully (to a JSON
string, not the empty object), then the executor throws; the recorded entry
still has empty-object arguments and the formatted error result. -/
theorem c10_witness :
    (if ("data" : String) ≠ "" then wParse ("data") else Except.ok (Json.obj [])) =
      Except.ok (Json.str ("data")) ∧
    Json.str ("data") ≠ Json.obj [] ∧
    execOne wParse wExec { id := "id9", name := "boom", arguments := "data" } =
      { id := "id9", name := "boom", arguments := Json.obj [],
        result := Json.obj [("error",
          Json.str ("Failed to execute boom: kaboom"))] } := by
  refine ⟨rfl, by simp, ?_⟩
  have h := c10_execOne_error_shape wParse wExec
    { id := "id9", name := "boom", arguments := "data" } (some ("kaboom")) (by rfl)
  exact h


/-- The first fragment name that is present and non-empty, else empty: the
name an index-0 accumulator entry ends up with. -/
def firstTruthyName : List DeltaToolCall → String
  | [] => ""
  | f :: fs => if jsTruthy f.name then f.name.getD ("") else firstTruthyName fs

/-- Concatenation of the arguments texts of a fragment list (absent
arguments contribute nothing). -/
def argumentsConcat : List DeltaToolCall → String
  | [] => ""
  | f :: fs => f.arguments.getD ("") ++ argumentsConcat fs

/-- A streamed chunk carrying exactly one tool-call fragment (at position 0
of its delta) and no content. -/
def singleFragmentChunk (f : DeltaToolCall) : ChatCompletionChunk :=
  { choices := [{ content := none, tool_calls := some [f] }] }

/-- A truthy optional string has a non-empty underlying value. -/
theorem jsTruthy_getD_ne (o : Option String) (h : jsTruthy o = true) : o.getD ("") ≠ "" := by
  cases o with
  | none => simp [jsTruthy] at h
  | some s => simpa [jsTruthy] using h

/-- Merging never changes the entry id. -/
theorem mergeToolCall_id (acc : ChatCompletionMessageFunctionToolCall)
    (dtc : DeltaToolCall) : (mergeToolCall acc dtc).id = acc.id := by
  unfold mergeToolCall
  by_cases h1 : jsTruthy dtc.name = true ∧ acc.name = "" <;>
    by_cases h2 : jsTruthy dtc.arguments = true <;> simp [h1, h2]

/-- Merging appends the fragment arguments text (or nothing when absent or
empty, which is the same concatenation). -/
theorem mergeToolCall_arguments (acc : ChatCompletionMessageFunctionToolCall)
    (dtc : DeltaToolCall) :
    (mergeToolCall acc dtc).arguments = acc.arguments ++ dtc.arguments.getD ("") := by
  unfold mergeToolCall
  by_cases h2 : jsTruthy dtc.arguments = true
  · by_cases h1 : jsTruthy dtc.name = true ∧ acc.name = "" <;> simp [h1, h2]
  · have hd : dtc.arguments.getD ("") = "" := by
      cases harg : dtc.arguments with
      | none => rfl
      | some s =>
        rw [harg] at h2
        simpa [jsTruthy] using h2
    by_cases h1 : jsTruthy dtc.name = true ∧ acc.name = "" <;>
      simp [h1, h2, hd, String.append_empty]

/-- Merging fills the name only when the fragment carries a truthy name and
the entry name is still empty. -/
theorem mergeToolCall_name (acc : ChatCompletionMessageFunctionToolCall)
    (dtc : DeltaToolCall) :
    (mergeToolCall acc dtc).name =
      if jsTruthy dtc.name = true ∧ acc.name = "" then dtc.name.getD ("") else acc.name := by
  unfold mergeToolCall
  by_cases h1 : jsTruthy dtc.name = true ∧ acc.name = "" <;>
    by_cases h2 : jsTruthy dtc.arguments = true <;> simp [h1, h2]

/-- Folding a list of fragments into one entry by `mergeToolCall` keeps the
id, concatenates all arguments texts, and gives the name the first truthy
fragment name unless the entry already had one. -/
theorem foldl_mergeToolCall_spec (rest : List DeltaToolCall) :
    ∀ e : ChatCompletionMessageFunctionToolCall,
      (rest.foldl mergeToolCall e).id = e.id ∧
      (rest.foldl mergeToolCall e).arguments = e.arguments ++ argumentsConcat rest ∧
      (rest.foldl mergeToolCall e).name =
        (if e.name = "" then firstTruthyName rest else e.name) := by
  induction rest with
  | nil =>
    intro e
    refine ⟨rfl, by simp [argumentsConcat, String.append_empty], ?_⟩
    by_cases h : e.name = "" <;> simp [firstTruthyName, h]
  | cons f fs ih =>
    intro e
    have step : fs.foldl mergeToolCall (mergeToolCall e f) =
        (f :: fs).foldl mergeToolCall e := rfl
    obtain ⟨hid, hargs, hname⟩ := ih (mergeToolCall e f)
    rw [step] at hid hargs hname
    refine ⟨by rw [hid, mergeToolCall_id], ?_, ?_⟩
    · rw [hargs, mergeToolCall_arguments, argumentsConcat, String.append_assoc]
    · rw [hname, mergeToolCall_name]
      by_cases he : e.name = ""
      · by_cases hf : jsTruthy f.name = true
        · rw [if_pos (And.intro hf he), if_pos he, if_neg (jsTruthy_getD_ne f.name hf)]
          simp [firstTruthyName, hf]
        · have hcond : ¬ (jsTruthy f.name = true ∧ e.name = "") := fun hc => hf hc.1
          rw [if_neg hcond, if_pos he, if_pos he]
          simp [firstTruthyName, hf]
      · have hcond : ¬ (jsTruthy f.name = true ∧ e.name = "") := fun hc => he hc.2
        rw [if_neg hcond, if_neg he, if_neg he]

/-- A fresh entry from the first fragment at a position has exactly the
fragment arguments text. -/
theorem freshToolCall_arguments (now i : Nat) (f : DeltaToolCall) :
    (freshToolCall now i f).arguments = f.arguments.getD ("") := by
  unfold freshToolCall jsOr
  cases harg : f.arguments with
  | none => rfl
  | some s => by_cases hs : s = "" <;> simp [hs]

/-- A fresh entry name is the fragment name when truthy and empty otherwise. -/
theorem freshToolCall_name (now i : Nat) (f : DeltaToolCall) :
    (freshToolCall now i f).name = (if jsTruthy f.name = true then f.name.getD ("") else ("")) := by
  unfold freshToolCall jsOr
  cases hn : f.name with
  | none => simp [jsTruthy]
  | some s => by_cases hs : s = "" <;> simp [jsTruthy, hs]

/-- The fragments a stream of deltas carries at positional index `j`, in
arrival order (a delta shorter than `j + 1` contributes nothing there). -/
def fragmentsAt (j : Nat) (deltas : List (List DeltaToolCall)) : List DeltaToolCall :=
  deltas.filterMap (fun d => d[j]?)

/-- The number of accumulator entries a stream of deltas establishes: the
largest delta length. -/
def maxLen (deltas : List (List DeltaToolCall)) : Nat :=
  deltas.foldr (fun d m => max d.length m) 0

/-- The inner loop of one delta, written recursively over the remaining
fragments with the running position explicit. -/
def accumulateFrom (now : Nat) :
    Nat → List ChatCompletionMessageFunctionToolCall → List DeltaToolCall →
      List ChatCompletionMessageFunctionToolCall
  | _, acc, [] => acc
  | k, acc, f :: rest => accumulateFrom now (k + 1) (accumulateStep now acc k f) rest

/-- One accumulation step grows the accumulator to cover position `i`. -/
theorem accumulateStep_length (now : Nat) (acc : List ChatCompletionMessageFunctionToolCall)
    (i : Nat) (dtc : DeltaToolCall) (h : i ≤ acc.length) :
    (accumulateStep now acc i dtc).length = max acc.length (i + 1) := by
  unfold accumulateStep
  split
  case isTrue h2 => simp; omega
  case isFalse h2 => simp; omega

/-- One accumulation step leaves every other position untouched. -/
theorem accumulateStep_getElem_ne (now : Nat) (acc : List ChatCompletionMessageFunctionToolCall)
    (i : Nat) (dtc : DeltaToolCall) (j : Nat) (hi : i ≤ acc.length) (hj : j ≠ i) :
    (accumulateStep now acc i dtc)[j]? = acc[j]? := by
  unfold accumulateStep
  split
  case isTrue h2 => exact List.getElem?_set_ne (Ne.symm hj)
  case isFalse h2 =>
    have hieq : i = acc.length := by omega
    subst hieq
    by_cases hjl : j < acc.length
    · exact List.getElem?_append_left hjl
    · have ha : acc[j]? = none := List.getElem?_eq_none (by omega)
      have hb : (acc ++ [freshToolCall now acc.length dtc])[j]? = none :=
        List.getElem?_eq_none (by simp; omega)
      rw [ha, hb]

/-- One accumulation step at an existing position merges into that entry. -/
theorem accumulateStep_getElem_merge (now : Nat)
    (acc : List ChatCompletionMessageFunctionToolCall)
    (i : Nat) (dtc : DeltaToolCall) (h : i < acc.length) :
    (accumulateStep now acc i dtc)[i]? = some (mergeToolCall acc[i] dtc) := by
  unfold accumulateStep
  rw [dif_pos h, List.getElem?_set_self h]
  rfl

/-- One accumulation step at the first unused position establishes a fresh
entry there. -/
theorem accumulateStep_getElem_fresh (now : Nat)
    (acc : List ChatCompletionMessageFunctionToolCall) (dtc : DeltaToolCall) :
    (accumulateStep now acc acc.length dtc)[acc.length]? =
      some (freshToolCall now acc.length dtc) := by
  unfold accumulateStep
  rw [dif_neg (lt_irrefl acc.length)]
  exact List.getElem?_concat_length acc _

/-- The indexed `for` loop over a delta equals its recursive form. -/
theorem enumFrom_foldl_accumulateStep (now : Nat) (d : List DeltaToolCall) :
    ∀ (k : Nat) (acc : List ChatCompletionMessageFunctionToolCall),
      (List.enumFrom k d).foldl (fun a p => accumulateStep now a p.1 p.2) acc =
        accumulateFrom now k acc d := by
  induction d with
  | nil => intro k acc; rfl
  | cons f rest ih =>
    intro k acc
    simp only [List.enumFrom, List.foldl_cons]
    exact ih (k + 1) (accumulateStep now acc k f)

/-- `accumulateDelta` is the recursive loop started at position 0. -/
theorem accumulateDelta_eq (now : Nat) (acc : List ChatCompletionMessageFunctionToolCall)
    (d : List DeltaToolCall) :
    accumulateDelta now acc d = accumulateFrom now 0 acc d := by
  unfold accumulateDelta
  exact enumFrom_foldl_accumulateStep now d 0 acc

/-- Behaviour of the delta loop from position `k`: the accumulator grows to
cover the delta, positions outside the delta range are untouched, already
existing positions inside it are merged field-wise, and new positions get
fresh entries from their first fragment. -/
theorem accumulateFrom_spec (now : Nat) (d : List DeltaToolCall) :
    ∀ (k : Nat) (acc : List ChatCompletionMessageFunctionToolCall), k ≤ acc.length →
      (accumulateFrom now k acc d).length = max acc.length (k + d.length) ∧
      (∀ j, j < k ∨ k + d.length ≤ j → (accumulateFrom now k acc d)[j]? = acc[j]?) ∧
      (∀ (i : Nat) (x : DeltaToolCall) (e : ChatCompletionMessageFunctionToolCall),
        d[i]? = some x → acc[k + i]? = some e →
        (accumulateFrom now k acc d)[k + i]? = some (mergeToolCall e x)) ∧
      (∀ (i : Nat) (x : DeltaToolCall), d[i]? = some x → acc.length ≤ k + i →
        (accumulateFrom now k acc d)[k + i]? = some (freshToolCall now (k + i) x)) := by
  induction d with
  | nil =>
    intro k acc hk
    refine ⟨?_, fun j _ => rfl, ?_, ?_⟩
    · show acc.length = max acc.length (k + ([] : List DeltaToolCall).length)
      simp
      omega
    · intro i x e hx
      exact absurd hx (by simp)
    · intro i x hx
      exact absurd hx (by simp)
  | cons f rest ih =>
    intro k acc hk
    have hlen1 : (accumulateStep now acc k f).length = max acc.length (k + 1) :=
      accumulateStep_length now acc k f hk
    have hk1 : k + 1 ≤ (accumulateStep now acc k f).length := by omega
    obtain ⟨ihL, ihU, ihM, ihF⟩ := ih (k + 1) (accumulateStep now acc k f) hk1
    have hstep : accumulateFrom now k acc (f :: rest) =
        accumulateFrom now (k + 1) (accumulateStep now acc k f) rest := rfl
    refine ⟨?_, ?_, ?_, ?_⟩
    · rw [hstep, ihL, hlen1]
      simp only [List.length_cons]
      omega
    · intro j hj
      simp only [List.length_cons] at hj
      rw [hstep, ihU j (by omega)]
      exact accumulateStep_getElem_ne now acc k f j hk (by omega)
    · intro i x e hx he
      rw [hstep]
      cases i with
      | zero =>
        have hxf : x = f := by
          rw [List.getElem?_cons_zero, Option.some.injEq] at hx
          exact hx.symm
        have hlt : k + 0 < acc.length := (List.getElem?_eq_some.mp he).1
        have hmerge := accumulateStep_getElem_merge now acc k f (by omega)
        have hacck : acc[k]? = some e := by
          rw [(by omega : k = k + 0)]
          exact he
        have hvale : acc[k] = e := by
          rw [List.getElem?_eq_getElem (by omega : k < acc.length)] at hacck
          exact Option.some.inj hacck
        rw [(by omega : k + 0 = k), ihU k (Or.inl (by omega)), hmerge, hvale, hxf]
      | succ n =>
        have hx1 : rest[n]? = some x := by
          rw [List.getElem?_cons_succ] at hx
          exact hx
        have hlt : k + (n + 1) < acc.length := (List.getElem?_eq_some.mp he).1
        have he1 : (accumulateStep now acc k f)[(k + 1) + n]? = some e := by
          rw [accumulateStep_getElem_ne now acc k f ((k + 1) + n) hk (by omega),
            (by omega : (k + 1) + n = k + (n + 1))]
          exact he
        rw [(by omega : k + (n + 1) = (k + 1) + n)]
        exact ihM n x e hx1 he1
    · intro i x hx hge
      rw [hstep]
      cases i with
      | zero =>
        have hxf : x = f := by
          rw [List.getElem?_cons_zero, Option.some.injEq] at hx
          exact hx.symm
        have hkeq : k = acc.length := by omega
        rw [(by omega : k + 0 = k), ihU k (Or.inl (by omega)), hxf]
        subst hkeq
        exact accumulateStep_getElem_fresh now acc f
      | succ n =>
        have hx1 : rest[n]? = some x := by
          rw [List.getElem?_cons_succ] at hx
          exact hx
        have hge1 : (accumulateStep now acc k f).length ≤ (k + 1) + n := by
          rw [hlen1]
          omega
        rw [(by omega : k + (n + 1) = (k + 1) + n)]
        exact ihF n x hx1 hge1

/-- Behaviour of one whole delta on the accumulator. -/
theorem accumulateDelta_spec (now : Nat) (acc : List ChatCompletionMessageFunctionToolCall)
    (d : List DeltaToolCall) :
    (accumulateDelta now acc d).length = max acc.length d.length ∧
    (∀ j, d.length ≤ j → (accumulateDelta now acc d)[j]? = acc[j]?) ∧
    (∀ (j : Nat) (x : DeltaToolCall) (e : ChatCompletionMessageFunctionToolCall),
      d[j]? = some x → acc[j]? = some e →
      (accumulateDelta now acc d)[j]? = some (mergeToolCall e x)) ∧
    (∀ (j : Nat) (x : DeltaToolCall), d[j]? = some x → acc.length ≤ j →
      (accumulateDelta now acc d)[j]? = some (freshToolCall now j x)) := by
  obtain ⟨hL, hU, hM, hF⟩ := accumulateFrom_spec now d 0 acc (by omega)
  rw [accumulateDelta_eq]
  refine ⟨by rw [hL]; omega, ?_, ?_, ?_⟩
  · intro j hj
    exact hU j (Or.inr (by omega))
  · intro j x e hx he
    have he0 : acc[0 + j]? = some e := by
      rw [Nat.zero_add]
      exact he
    have h := hM j x e hx he0
    rw [Nat.zero_add] at h
    exact h
  · intro j x hx hge
    have h := hF j x hx (by omega)
    rw [Nat.zero_add] at h
    exact h

/-- A delta covering position `j` contributes its fragment there. -/
theorem fragmentsAt_cons_lt (j : Nat) (d : List DeltaToolCall)
    (ds : List (List DeltaToolCall)) (h : j < d.length) :
    fragmentsAt j (d :: ds) = d[j] :: fragmentsAt j ds := by
  simp [fragmentsAt, List.filterMap_cons, List.getElem?_eq_getElem h]

/-- A delta shorter than `j + 1` contributes nothing at position `j`. -/
theorem fragmentsAt_cons_ge (j : Nat) (d : List DeltaToolCall)
    (ds : List (List DeltaToolCall)) (h : d.length ≤ j) :
    fragmentsAt j (d :: ds) = fragmentsAt j ds := by
  simp [fragmentsAt, List.filterMap_cons, List.getElem?_eq_none h]

/-- `maxLen` of a stream with one more delta. -/
theorem maxLen_cons (d : List DeltaToolCall) (ds : List (List DeltaToolCall)) :
    maxLen (d :: ds) = max d.length (maxLen ds) := rfl

/-- Folding a whole stream of deltas into the accumulator. -/
def accumulateStream (now : Nat) (acc : List ChatCompletionMessageFunctionToolCall)
    (deltas : List (List DeltaToolCall)) : List ChatCompletionMessageFunctionToolCall :=
  deltas.foldl (accumulateDelta now) acc

/-- Behaviour of a whole stream of deltas: one entry per covered position;
an already existing entry absorbs, by `mergeToolCall` in arrival order, every
fragment the stream carries at its position; a position first covered by the
stream gets a fresh entry from its first fragment and absorbs the rest. -/
theorem accumulateStream_spec (now : Nat) (deltas : List (List DeltaToolCall)) :
    ∀ acc : List ChatCompletionMessageFunctionToolCall,
      (accumulateStream now acc deltas).length = max acc.length (maxLen deltas) ∧
      (∀ j (hj : j < acc.length),
        (accumulateStream now acc deltas)[j]? =
          some ((fragmentsAt j deltas).foldl mergeToolCall acc[j])) ∧
      (∀ j, acc.length ≤ j → ∀ f rest, fragmentsAt j deltas = f :: rest →
        (accumulateStream now acc deltas)[j]? =
          some (rest.foldl mergeToolCall (freshToolCall now j f))) := by
  induction deltas with
  | nil =>
    intro acc
    refine ⟨?_, ?_, ?_⟩
    · show acc.length = max acc.length (maxLen [])
      simp [maxLen]
    · intro j hj
      show acc[j]? = some ((fragmentsAt j []).foldl mergeToolCall acc[j])
      simp [fragmentsAt, List.getElem?_eq_getElem hj]
    · intro j hj f rest hfr
      exact absurd hfr (by simp [fragmentsAt])
  | cons d ds ih =>
    intro acc
    obtain ⟨dL, dU, dM, dF⟩ := accumulateDelta_spec now acc d
    obtain ⟨sL, sB, sC⟩ := ih (accumulateDelta now acc d)
    have hstep : accumulateStream now acc (d :: ds) =
        accumulateStream now (accumulateDelta now acc d) ds := rfl
    refine ⟨?_, ?_, ?_⟩
    · rw [hstep, sL, dL, maxLen_cons]
      omega
    · intro j hj
      have hacc1 : j < (accumulateDelta now acc d).length := by rw [dL]; omega
      rw [hstep, sB j hacc1]
      by_cases hjd : j < d.length
      · have hd : (accumulateDelta now acc d)[j] = mergeToolCall acc[j] d[j] := by
          have h1 := dM j d[j] acc[j] (List.getElem?_eq_getElem hjd)
            (List.getElem?_eq_getElem hj)
          rw [List.getElem?_eq_getElem hacc1] at h1
          exact Option.some.inj h1
        rw [hd, fragmentsAt_cons_lt j d ds hjd]
        simp [List.foldl_cons]
      · have hd : (accumulateDelta now acc d)[j] = acc[j] := by
          have h1 := dU j (by omega)
          rw [List.getElem?_eq_getElem hacc1, List.getElem?_eq_getElem hj] at h1
          exact Option.some.inj h1
        rw [hd, fragmentsAt_cons_ge j d ds (by omega)]
    · intro j hj f rest hfr
      rw [hstep]
      by_cases hjd : j < d.length
      · have hacc1 : j < (accumulateDelta now acc d).length := by rw [dL]; omega
        have hdg : (accumulateDelta now acc d)[j] = freshToolCall now j d[j] := by
          have h1 := dF j d[j] (List.getElem?_eq_getElem hjd) hj
          rw [List.getElem?_eq_getElem hacc1] at h1
          exact Option.some.inj h1
        rw [fragmentsAt_cons_lt j d ds hjd] at hfr
        injection hfr with hf hrest
        rw [sB j hacc1, hdg, hf, hrest]
      · have hge1 : (accumulateDelta now acc d).length ≤ j := by rw [dL]; omega
        rw [fragmentsAt_cons_ge j d ds (by omega)] at hfr
        exact sC j hge1 f rest hfr

/-- A streamed chunk carrying a whole delta: any content fragment plus the
tool-call fragment list. -/
def deltaChunk (p : Option String × List DeltaToolCall) : ChatCompletionChunk :=
  { choices := [{ content := p.1, tool_calls := some p.2 }] }

/-- Consuming a stream of delta chunks drives the tool-call accumulator by
`accumulateStream`, independently of the content fragments. -/
theorem foldl_deltaChunk (now : Nat) (stream : List (Option String × List DeltaToolCall)) :
    ∀ st : StreamState,
      ((stream.map deltaChunk).foldl (processChunk now) st).accumulatedToolCalls =
        accumulateStream now st.accumulatedToolCalls (stream.map Prod.snd) := by
  induction stream with
  | nil => intro st; rfl
  | cons p rest ih =>
    intro st
    have hacc : (processChunk now st (deltaChunk p)).accumulatedToolCalls =
        accumulateDelta now st.accumulatedToolCalls p.2 := by
      by_cases hc : jsTruthy p.1 = true <;> simp [processChunk, deltaChunk, hc]
    simp only [List.map_cons, List.foldl_cons]
    rw [ih, hacc]
    rfl

/-- The concrete lookup stream of C1: index-0 fragments whose arguments text
is split in two. -/
def lookupStream : List (Option String × List DeltaToolCall) :=
  [ (none, [{ id := some ("call_1"), name := some ("lookup"),
              arguments := some ("\x7b\"q\":") }]),
    (none, [{ id := none, name := none, arguments := some ("\"x\"\x7d") }]) ]

/-- Claim C1: streaming tool-call fragments merge into the accumulator by
positional index — over any stream of deltas (each carrying any number of
fragments), one entry exists per covered index, the first fragment at an
index establishes the entry id (or the timestamped fallback) and name, and
the later fragments at the same index append their arguments texts in order
and fill the name only while it is still empty; moreover the concrete lookup
stream with arguments split in two accumulates exactly the full arguments
text before any parsing happens. -/
theorem c1_stream_accumulation (now : Nat)
    (stream : List (Option String × List DeltaToolCall)) :
    ((stream.map deltaChunk).foldl (processChunk now)
        { fullContent := "", accumulatedToolCalls := [] }).accumulatedToolCalls.length =
      maxLen (stream.map Prod.snd) ∧
    (∀ (j : Nat) (f : DeltaToolCall) (rest : List DeltaToolCall),
      fragmentsAt j (stream.map Prod.snd) = f :: rest →
      ((stream.map deltaChunk).foldl (processChunk now)
          { fullContent := "", accumulatedToolCalls := [] }).accumulatedToolCalls[j]? =
        some { id := jsOr f.id ("tool_" ++ toString now ++ "_" ++ toString j),
               name := firstTruthyName (f :: rest),
               arguments := argumentsConcat (f :: rest) }) ∧
    ((lookupStream.map deltaChunk).foldl (processChunk 7)
        { fullContent := "", accumulatedToolCalls := [] }).accumulatedToolCalls =
      [{ id := "call_1", name := "lookup", arguments := "\x7b\"q\":\"x\"\x7d" }] := by
  obtain ⟨sL, sB, sC⟩ := accumulateStream_spec now (stream.map Prod.snd) []
  refine ⟨?_, ?_, by decide⟩
  · rw [foldl_deltaChunk]
    rw [sL]
    simp
  · intro j f rest hfr
    rw [foldl_deltaChunk]
    rw [sC j (by simp) f rest hfr]
    obtain ⟨hid, hargs, hname⟩ := foldl_mergeToolCall_spec rest (freshToolCall now j f)
    congr 1
    apply ChatCompletionMessageFunctionToolCall.ext
    · rw [hid]
      rfl
    · rw [hname, freshToolCall_name]
      by_cases hf : jsTruthy f.name = true
      · rw [if_pos hf, if_neg (jsTruthy_getD_ne f.name hf)]
        simp [firstTruthyName, hf]
      · rw [if_neg hf, if_pos rfl]
        simp [firstTruthyName, hf]
    · rw [hargs, freshToolCall_arguments]
      rfl

/-- The two-delta, two-index stream of the C1 witness: each delta carries a
fragment at index 0 and one at index 1. -/
def wStream : List (Option String × List DeltaToolCall) :=
  [ (none, [{ id := some ("idA"), name := some ("alpha"), arguments := some ("\x7b\"a\":") },
            { id := some ("idB"), name := some ("beta"), arguments := some ("\x7b\"b\":") }]),
    (some ("hi"), [{ id := none, name := none, arguments := some ("1\x7d") },
                   { id := none, name := none, arguments := some ("2\x7d") }]) ]

/-- Witness for C1 at a stream with multi-fragment deltas and indices 0 and
1: both entries accumulate their own id, name and split arguments. -/
theorem c1_witness :
    ((wStream.map deltaChunk).foldl (processChunk 5)
        { fullContent := "", accumulatedToolCalls := [] }).accumulatedToolCalls.length = 2 ∧
    ((wStream.map deltaChunk).foldl (processChunk 5)
        { fullContent := "", accumulatedToolCalls := [] }).accumulatedToolCalls[0]? =
      some { id := "idA", name := "alpha", arguments := "\x7b\"a\":1\x7d" } ∧
    ((wStream.map deltaChunk).foldl (processChunk 5)
        { fullContent := "", accumulatedToolCalls := [] }).accumulatedToolCalls[1]? =
      some { id := "idB", name := "beta", arguments := "\x7b\"b\":2\x7d" } := by
  have h := c1_stream_accumulation 5 wStream
  refine ⟨?_, ?_, ?_⟩
  · rw [h.1]
    decide
  · rw [h.2.1 0
      { id := some ("idA"), name := some ("alpha"), arguments := some ("\x7b\"a\":") }
      [{ id := none, name := none, arguments := some ("1\x7d") }] (by decide)]
    decide
  · rw [h.2.1 1
      { id := some ("idB"), name := some ("beta"), arguments := some ("\x7b\"b\":") }
      [{ id := none, name := none, arguments := some ("2\x7d") }] (by decide)]
    decide

/-- The tool-role block of the second call: one message per executed tool
call, carrying the serialized result and, after resolving the
index-or-result-id fallback, exactly the originating request id. -/
theorem toolBlock_eq (jsonParse : String → Except (Option String) Json)
    (executeTool : String → Json → Except (Option String) Json)
    (reqs : List ChatCompletionMessageFunctionToolCall) :
    (executeToolCalls jsonParse executeTool reqs).enum.map (fun q =>
        OutMsg.tool (Json.stringify q.2.result) (toolCallIdAt reqs q.1 q.2.id)) =
      reqs.map (fun r =>
        OutMsg.tool (Json.stringify (execOne jsonParse executeTool r).result) (r.id)) := by
  apply List.ext_getElem
  · simp [executeToolCalls]
  · intro i h1 h2
    have hi : i < reqs.length := by simpa [executeToolCalls] using h2
    have hlen : i < (executeToolCalls jsonParse executeTool reqs).enum.length := by
      simpa [executeToolCalls] using hi
    simp only [List.getElem_map, List.getElem_enum, executeToolCalls]
    have hid : (execOne jsonParse executeTool reqs[i]).id = reqs[i].id :=
      execOne_id jsonParse executeTool reqs[i]
    have hidat : toolCallIdAt reqs i (execOne jsonParse executeTool reqs[i]).id = reqs[i].id := by
      unfold toolCallIdAt
      rw [List.getElem?_eq_getElem hi]
      unfold jsOr
      by_cases hz : reqs[i].id = "" <;> simp [hz, hid]
    rw [hidat]

/-- The `JSON.parse` of the echo scenario: the literal arguments text of the
echo request parses to the object with field v equal to 1. -/
def echoParse : String → Except (Option String) Json :=
  fun s => if s = "\x7b\"v\":1\x7d" then Except.ok (Json.obj [("v", Json.num 1)])
           else Except.error (some ("unexpected text"))

/-- The executor of the echo scenario: returns its parsed arguments. -/
def echoExec : String → Json → Except (Option String) Json :=
  fun _ args => Except.ok args

/-- The tool-call request of the echo scenario. -/
def echoReq : ChatCompletionMessageFunctionToolCall :=
  { id := "call_1", name := "echo", arguments := "\x7b\"v\":1\x7d" }

/-- Claim C4: the message list of the second completion call is the short system
instruction, the last at most 3 history messages, the original user message,
the synthetic assistant message carrying the original requests, and one
tool-role message per executed call whose content is the JSON serialization
of its result and whose correlating id is the originating request id; the
final turn content is the content of that call or the generic fallback; and the
echo scenario produces the tool-role content as in the claim. -/
theorem c4_second_call_shape (jsonParse : String → Except (Option String) Json)
    (executeTool : String → Json → Except (Option String) Json)
    (followUp : List OutMsg → Option String)
    (userMessage : String) (history : List Message)
    (reqs : List ChatCompletionMessageFunctionToolCall) :
    secondCallMessages userMessage history reqs (executeToolCalls jsonParse executeTool reqs) =
      [OutMsg.plain ("system")
          (some ("You are a helpful AI assistant. Respond naturally to the tool results."))]
        ++ (lastN 3 history).map (fun m => OutMsg.plain m.role (some m.content))
        ++ [OutMsg.plain ("user") (some userMessage), OutMsg.assistantCalls reqs]
        ++ reqs.map (fun r =>
            OutMsg.tool (Json.stringify (execOne jsonParse executeTool r).result) (r.id)) ∧
    (lastN 3 history).length = min history.length 3 ∧
    generateToolResponse followUp userMessage history reqs
        (executeToolCalls jsonParse executeTool reqs) =
      jsOr (followUp (secondCallMessages userMessage history reqs
          (executeToolCalls jsonParse executeTool reqs)))
        ("Tool results processed successfully.") ∧
    secondCallMessages ("check") [] [echoReq] (executeToolCalls echoParse echoExec [echoReq]) =
      [OutMsg.plain ("system")
          (some ("You are a helpful AI assistant. Respond naturally to the tool results.")),
       OutMsg.plain ("user") (some ("check")),
       OutMsg.assistantCalls [echoReq],
       OutMsg.tool ("\x7b\"v\":1\x7d") ("call_1")] ∧
    generateToolResponse (fun _ => some ("All done.")) "check" [] [echoReq]
        (executeToolCalls echoParse echoExec [echoReq]) = "All done." := by
  refine ⟨?_, ?_, rfl, ?_, rfl⟩
  · unfold secondCallMessages
    rw [toolBlock_eq]
  · simp only [lastN, List.length_drop]
    omega
  · decide


/-- The tool-call requests carried by a whole completion (empty when the
choice or the `tool_calls` field is absent). -/
def requestedToolCalls (completion : ChatCompletion) :
    List ChatCompletionMessageFunctionToolCall :=
  match completion.choices.head? with
  | some rm =>
    match rm.tool_calls with
    | some reqs => reqs
    | none => []
  | none => []

/-- Without a stream fault, `handleStreamResponse` returns the tool branch
exactly when the accumulator is non-empty. -/
theorem handleStreamResponse_no_fault (jsonParse : String → Except (Option String) Json)
    (executeTool : String → Json → Except (Option String) Json)
    (followUp : List OutMsg → Option String) (now : Nat)
    (chunks : List ChatCompletionChunk) (message : String)
    (conversationHistory : List Message) :
    handleStreamResponse jsonParse executeTool followUp now chunks false
        message conversationHistory =
      (if (chunks.foldl (processChunk now)
            { fullContent := "", accumulatedToolCalls := [] }).accumulatedToolCalls.length > 0
       then Except.ok
          { content := generateToolResponse followUp message conversationHistory
              (chunks.foldl (processChunk now)
                { fullContent := "", accumulatedToolCalls := [] }).accumulatedToolCalls
              (executeToolCalls jsonParse executeTool
                (chunks.foldl (processChunk now)
                  { fullContent := "", accumulatedToolCalls := [] }).accumulatedToolCalls),
            toolCalls := some (executeToolCalls jsonParse executeTool
              (chunks.foldl (processChunk now)
                { fullContent := "", accumulatedToolCalls := [] }).accumulatedToolCalls) }
       else Except.ok
          { content := (chunks.foldl (processChunk now)
              { fullContent := "", accumulatedToolCalls := [] }).fullContent,
            toolCalls := none }) := rfl

/-- The `toolCalls` field returned by the blocking branch, by shape of the
completion. -/
theorem handleNonStreamResponse_toolCalls (jsonParse : String → Except (Option String) Json)
    (executeTool : String → Json → Except (Option String) Json)
    (followUp : List OutMsg → Option String) (completion : ChatCompletion)
    (message : String) (conversationHistory : List Message) :
    (handleNonStreamResponse jsonParse executeTool followUp completion
        message conversationHistory).toolCalls =
      (match completion.choices.head? with
       | some rm =>
         match rm.tool_calls with
         | some reqs => some (executeToolCalls jsonParse executeTool reqs)
         | none => none
       | none => none) := by
  cases hch : completion.choices.head? with
  | none => simp [handleNonStreamResponse, hch]
  | some rm =>
    cases htc : rm.tool_calls with
    | none => simp [handleNonStreamResponse, hch, htc]
    | some reqs => simp [handleNonStreamResponse, hch, htc]

/-- Claim C6: the `toolCalls` field of the returned `TurnResult` is present
and non-empty exactly when the model requested at least one tool call in the
turn, in both the streaming branch (accumulated fragments) and the blocking
branch; with no request it is omitted or empty. -/
theorem c6_toolCalls_iff (jsonParse : String → Except (Option String) Json)
    (executeTool : String → Json → Except (Option String) Json)
    (followUp : List OutMsg → Option String) (now : Nat)
    (chunks : List ChatCompletionChunk) (message : String)
    (conversationHistory : List Message) (completion : ChatCompletion)
    (res : TurnResult)
    (hres : handleStreamResponse jsonParse executeTool followUp now chunks false
        message conversationHistory = Except.ok res) :
    ((∃ l, res.toolCalls = some l ∧ l ≠ []) ↔
      (chunks.foldl (processChunk now)
          { fullContent := "", accumulatedToolCalls := [] }).accumulatedToolCalls ≠ []) ∧
    ((∃ l, (handleNonStreamResponse jsonParse executeTool followUp completion
        message conversationHistory).toolCalls = some l ∧ l ≠ []) ↔
      requestedToolCalls completion ≠ []) ∧
    (requestedToolCalls completion = [] →
      (handleNonStreamResponse jsonParse executeTool followUp completion
          message conversationHistory).toolCalls = none ∨
      (handleNonStreamResponse jsonParse executeTool followUp completion
          message conversationHistory).toolCalls = some []) := by
  rw [handleStreamResponse_no_fault] at hres
  refine ⟨?_, ?_⟩
  · split at hres
    case isTrue hlen =>
      rw [Except.ok.injEq] at hres
      subst hres
      constructor
      · intro _
        exact List.ne_nil_of_length_pos hlen
      · intro hne
        refine ⟨executeToolCalls jsonParse executeTool
          (chunks.foldl (processChunk now)
            { fullContent := "", accumulatedToolCalls := [] }).accumulatedToolCalls,
          rfl, ?_⟩
        simpa [executeToolCalls] using List.ne_nil_of_length_pos hlen
    case isFalse hlen =>
      rw [Except.ok.injEq] at hres
      subst hres
      constructor
      · rintro ⟨l, hl, hne⟩
        exact absurd hl (by simp)
      · intro hne
        refine absurd ?_ hne
        have hz : (chunks.foldl (processChunk now)
            { fullContent := "", accumulatedToolCalls := [] }).accumulatedToolCalls.length = 0 := by
          omega
        exact List.eq_nil_of_length_eq_zero hz
  · rw [handleNonStreamResponse_toolCalls]
    unfold requestedToolCalls
    cases hch : completion.choices.head? with
    | none => simp
    | some rm =>
      cases htc : rm.tool_calls with
      | none => simp [htc]
      | some reqs =>
        simp only [htc]
        refine ⟨?_, ?_⟩
        · constructor
          · rintro ⟨l, hl, hne⟩
            rw [Option.some.injEq] at hl
            subst hl
            simpa [executeToolCalls] using hne
          · intro hne
            exact ⟨_, rfl, by simpa [executeToolCalls] using hne⟩
        · intro hreq
          subst hreq
          right
          simp [executeToolCalls]

/-- The streamed chunks of the C6 witness: one tool-call fragment. -/
def c6Chunks : List ChatCompletionChunk :=
  [singleFragmentChunk { id := some ("c1"), name := some ("t"), arguments := some ("x") }]

/-- Witness for C6: a stream requesting one tool yields a present non-empty
`toolCalls`; a content-only whole completion yields an omitted one. -/
theorem c6_witness :
    (∃ l, (TurnResult.mk ("done")
        (some [{ id := "c1", name := "t", arguments := Json.str ("x"),
                 result := Json.str ("x") }])).toolCalls = some l ∧ l ≠ []) ∧
    (handleNonStreamResponse wParse wExec (fun _ => some ("done"))
        { choices := [{ content := some ("hi"), tool_calls := none }] } "m" []).toolCalls =
      none := by
  have h := c6_toolCalls_iff wParse wExec (fun _ => some ("done")) 0 c6Chunks ("m") []
    { choices := [{ content := some ("hi"), tool_calls := none }] }
    (TurnResult.mk ("done")
      (some [{ id := "c1", name := "t", arguments := Json.str ("x"),
               result := Json.str ("x") }]))
    (by rfl)
  exact ⟨h.1.mpr (by decide), rfl⟩

/-- A streamed chunk carrying only a content fragment. -/
def contentChunk (s : String) : ChatCompletionChunk :=
  { choices := [{ content := some s, tool_calls := none }] }

/-- Concatenation of streamed content fragments. -/
def concatFragments : List String → String
  | [] => ""
  | s :: rest => s ++ concatFragments rest

/-- Folding content-only chunks accumulates exactly the concatenation of the
fragments and leaves the tool-call accumulator alone. -/
theorem foldl_contentChunk (now : Nat) (frags : List String) :
    ∀ (c : String) (acc : List ChatCompletionMessageFunctionToolCall),
      ((frags.map contentChunk).foldl (processChunk now)
          { fullContent := c, accumulatedToolCalls := acc }) =
        { fullContent := c ++ concatFragments frags, accumulatedToolCalls := acc } := by
  induction frags with
  | nil =>
    intro c acc
    simp [concatFragments, String.append_empty]
  | cons s rest ih =>
    intro c acc
    have hstep : processChunk now { fullContent := c, accumulatedToolCalls := acc }
        (contentChunk s) =
        { fullContent := c ++ s, accumulatedToolCalls := acc } := by
      by_cases hs : s = ""
      · subst hs
        simp [processChunk, contentChunk, jsTruthy, String.append_empty]
      · simp [processChunk, contentChunk, jsTruthy, hs]
    simp only [List.map_cons, List.foldl_cons, hstep, ih]
    rw [concatFragments, ← String.append_assoc]

/-- Counterexample to C8 as stated: the same content-only completion
response with empty content text gives content `""` when streamed but the
generic fallback when delivered whole, so the two modes disagree. -/
theorem c8_counterexample :
    processMessage wParse wExec (fun _ => none) 0
        (fun _ => ([contentChunk ("")], false))
        (fun _ => { choices := [{ content := some (""), tool_calls := none }] })
        "m" [] true =
      Except.ok { content := "", toolCalls := none } ∧
    processMessage wParse wExec (fun _ => none) 0
        (fun _ => ([contentChunk ("")], false))
        (fun _ => { choices := [{ content := some (""), tool_calls := none }] })
        "m" [] false =
      Except.ok { content := "I apologize, but I encountered an issue.", toolCalls := none } ∧
    ("" : String) ≠ "I apologize, but I encountered an issue." :=
  ⟨rfl, rfl, by decide⟩

/-- Handler-level agreement of the two branches on non-empty content-only
responses. -/
theorem streamBlock_agree_aux (jsonParse : String → Except (Option String) Json)
    (executeTool : String → Json → Except (Option String) Json)
    (followUp : List OutMsg → Option String) (now : Nat)
    (message : String) (conversationHistory : List Message)
    (text : String) (htext : text ≠ "") (frags : List String)
    (hcat : concatFragments frags = text) :
    handleStreamResponse jsonParse executeTool followUp now (frags.map contentChunk) false
        message conversationHistory =
      Except.ok { content := text, toolCalls := none } ∧
    handleNonStreamResponse jsonParse executeTool followUp
        { choices := [{ content := some text, tool_calls := none }] }
        message conversationHistory =
      { content := text, toolCalls := none } := by
  constructor
  · unfold handleStreamResponse
    rw [if_neg (by simp)]
    rw [foldl_contentChunk, String.empty_append, hcat]
    rfl
  · unfold handleNonStreamResponse
    simp only [List.head?, jsOr]
    rw [if_neg htext]

/-- Claim C8 as amended: for every completion response carrying only
non-empty content text and no tool calls, `processMessage` in streaming mode
(the text delivered as fragments whose concatenation equals it) and in
blocking mode (the text delivered whole) produce `TurnResult`s with equal
content. -/
theorem c8_amended_stream_block_agree (jsonParse : String → Except (Option String) Json)
    (executeTool : String → Json → Except (Option String) Json)
    (followUp : List OutMsg → Option String) (now : Nat)
    (message : String) (conversationHistory : List Message)
    (text : String) (htext : text ≠ "") (frags : List String)
    (hcat : concatFragments frags = text) :
    processMessage jsonParse executeTool followUp now
        (fun _ => (frags.map contentChunk, false))
        (fun _ => { choices := [{ content := some text, tool_calls := none }] })
        message conversationHistory true =
      Except.ok { content := text, toolCalls := none } ∧
    processMessage jsonParse executeTool followUp now
        (fun _ => (frags.map contentChunk, false))
        (fun _ => { choices := [{ content := some text, tool_calls := none }] })
        message conversationHistory false =
      Except.ok { content := text, toolCalls := none } := by
  obtain ⟨hs, hb⟩ := streamBlock_agree_aux jsonParse executeTool followUp now
    message conversationHistory text htext frags hcat
  constructor
  · exact hs
  · show Except.ok (handleNonStreamResponse jsonParse executeTool followUp
      { choices := [{ content := some text, tool_calls := none }] }
      message conversationHistory) = Except.ok { content := text, toolCalls := none }
    rw [hb]

/-- Witness for the amended C8 at a concrete split of a non-empty text. -/
theorem c8_amended_witness :
    processMessage wParse wExec (fun _ => none) 0
        (fun _ => ((["Hel", "lo"] : List String).map contentChunk, false))
        (fun _ => { choices := [{ content := some ("Hello"), tool_calls := none }] })
        "m" [] true =
      Except.ok { content := "Hello", toolCalls := none } ∧
    processMessage wParse wExec (fun _ => none) 0
        (fun _ => ((["Hel", "lo"] : List String).map contentChunk, false))
        (fun _ => { choices := [{ content := some ("Hello"), tool_calls := none }] })
        "m" [] false =
      Except.ok { content := "Hello", toolCalls := none } :=
  c8_amended_stream_block_agree wParse wExec (fun _ => none) 0 ("m") [] ("Hello")
    (by decide) ["Hel", "lo"] (by rfl)

end ChatHandler
